import Mathlib

set_option maxRecDepth 8000

/-!
Verification of the key-conversion pipeline in `CompressionKey/src/GenKS.py`
against its design specification.

The Python source is shallowly embedded: byte strings become `List Nat`
(each element one byte), Python functions that can raise become
`Option`-valued Lean functions (`none` models an uncaught exception),
and the trusted library primitives the source calls (`hashlib.sha256`,
`hashlib.new('keccak256')`, `base58.b58encode`, and the `ecdsa` secp256k1
scalar multiplication) are embedded by their standard algorithms so that
every definition is executable.
-/

namespace GenKS

/-! ## Byte-string helpers -/

/-- Big-endian interpretation of a byte string as a natural number
(`ecdsa.util.string_to_number`). -/
def bytesToNat (bs : List Nat) : Nat :=
  bs.foldl (fun acc b => acc * 256 + b) 0

/-- Big-endian encoding of `v` into exactly `len` bytes
(`ecdsa.util.number_to_string` with a 32-byte order length). -/
def natBytesBE : Nat → Nat → List Nat
  | 0, _ => []
  | len + 1, v => natBytesBE len (v / 256) ++ [v % 256]

/-- Little-endian encoding of `v` into exactly `len` bytes (Keccak lane I/O). -/
def natBytesLE : Nat → Nat → List Nat
  | 0, _ => []
  | len + 1, v => v % 256 :: natBytesLE len (v / 256)

/-- Lowercase hexadecimal digit. -/
def hexChar (n : Nat) : Char :=
  "0123456789abcdef".toList.getD n '0'

/-- The two lowercase hex characters of one byte. -/
def hexByte (b : Nat) : List Char :=
  [hexChar (b / 16 % 16), hexChar (b % 16)]

/-- Lowercase hex rendering of a byte string (`hexdigest`). -/
def bytesToHexChars : List Nat → List Char
  | [] => []
  | b :: bs => hexByte b ++ bytesToHexChars bs

/-- Split a list into chunks of `n` bytes; `fuel` bounds the recursion. -/
def chunksN (n : Nat) : Nat → List Nat → List (List Nat)
  | 0, _ => []
  | _, [] => []
  | fuel + 1, l => l.take n :: chunksN n fuel (l.drop n)

/-! ## SHA-256 (the `hashlib.sha256` primitive) -/

/-- Truncation to a 32-bit word. -/
def w32 (x : Nat) : Nat := x % 4294967296

/-- 32-bit right rotation. -/
def rotr32 (x n : Nat) : Nat := w32 ((x >>> n) ||| (x <<< (32 - n)))

/-- SHA-256 round constants (FIPS 180-4, written in decimal). -/
def shaK : List Nat :=
  [1116352408, 1899447441, 3049323471, 3921009573, 961987163, 1508970993, 2453635748,
   2870763221, 3624381080, 310598401, 607225278, 1426881987, 1925078388, 2162078206,
   2614888103, 3248222580, 3835390401, 4022224774, 264347078, 604807628, 770255983,
   1249150122, 1555081692, 1996064986, 2554220882, 2821834349, 2952996808, 3210313671,
   3336571891, 3584528711, 113926993, 338241895, 666307205, 773529912, 1294757372,
   1396182291, 1695183700, 1986661051, 2177026350, 2456956037, 2730485921, 2820302411,
   3259730800, 3345764771, 3516065817, 3600352804, 4094571909, 275423344, 430227734,
   506948616, 659060556, 883997877, 958139571, 1322822218, 1537002063, 1747873779,
   1955562222, 2024104815, 2227730452, 2361852424, 2428436474, 2756734187, 3204031479,
   3329325298]

/-- SHA-256 initial hash state (FIPS 180-4, written in decimal). -/
def shaH0 : List Nat :=
  [1779033703, 3144134277, 1013904242, 2773480762,
   1359893119, 2600822924, 528734635, 1541459225]

/-- Group a byte string into big-endian 32-bit words. -/
def wordsBE : List Nat → List Nat
  | b0 :: b1 :: b2 :: b3 :: rest =>
      (((b0 * 256 + b1) * 256 + b2) * 256 + b3) :: wordsBE rest
  | _ => []

/-- Extend the 16-word message schedule by `n` further words. -/
def sha_extend : Nat → List Nat → List Nat
  | 0, w => w
  | n + 1, w =>
      let i := w.length
      let x0 := w.getD (i - 15) 0
      let x1 := w.getD (i - 2) 0
      let s0 := rotr32 x0 7 ^^^ rotr32 x0 18 ^^^ (x0 >>> 3)
      let s1 := rotr32 x1 17 ^^^ rotr32 x1 19 ^^^ (x1 >>> 10)
      sha_extend n (w ++ [w32 (w.getD (i - 16) 0 + s0 + w.getD (i - 7) 0 + s1)])

/-- One SHA-256 compression round; the state is the 8-word list `[a..h]`. -/
def sha_round (st : List Nat) (kw : Nat × Nat) : List Nat :=
  match st with
  | [a, b, c, d, e, f, g, h] =>
      let S1 := rotr32 e 6 ^^^ rotr32 e 11 ^^^ rotr32 e 25
      let ch := (e &&& f) ^^^ ((e ^^^ 0xffffffff) &&& g)
      let t1 := w32 (h + S1 + ch + kw.1 + kw.2)
      let S0 := rotr32 a 2 ^^^ rotr32 a 13 ^^^ rotr32 a 22
      let maj := (a &&& b) ^^^ (a &&& c) ^^^ (b &&& c)
      let t2 := w32 (S0 + maj)
      [w32 (t1 + t2), a, b, c, w32 (d + t1), e, f, g]
  | st => st

/-- Process one padded 64-byte block. -/
def sha_block (st : List Nat) (block : List Nat) : List Nat :=
  let w := sha_extend 48 (wordsBE block)
  let st2 := (shaK.zip w).foldl sha_round st
  List.zipWith (fun x y => w32 (x + y)) st st2

/-- SHA-256 padding: `0x80`, zeros, then the 64-bit big-endian bit length. -/
def sha_pad (msg : List Nat) : List Nat :=
  msg ++ [0x80] ++ List.replicate ((119 - msg.length % 64) % 64) 0
      ++ natBytesBE 8 (8 * msg.length)

/-- SHA-256 digest (32 bytes) of a byte string. -/
def sha256 (msg : List Nat) : List Nat :=
  let padded := sha_pad msg
  let final := (chunksN 64 padded.length padded).foldl sha_block shaH0
  final.foldr (fun w acc => natBytesBE 4 w ++ acc) []

/-! ## Base58 (the `base58.b58encode` primitive) -/

/-- The Bitcoin base58 alphabet. -/
def b58Alphabet : List Char :=
  "123456789ABCDEFGHJKLMNPQRSTUVWXYZabcdefghijkmnopqrstuvwxyz".toList

/-- Base58 digits of `n`, most significant first; `fuel` bounds recursion. -/
def b58digits : Nat → Nat → List Char
  | 0, _ => []
  | fuel + 1, n =>
      if n = 0 then []
      else b58digits fuel (n / 58) ++ [b58Alphabet.getD (n % 58) '1']

/-- Number of leading zero bytes (each rendered as `'1'`). -/
def countLeadingZeros : List Nat → Nat
  | [] => 0
  | b :: bs => if b = 0 then countLeadingZeros bs + 1 else 0

/-- `base58.b58encode` of a byte string, decoded to text as in the source. -/
def b58encode (bs : List Nat) : String :=
  String.mk (List.replicate (countLeadingZeros bs) '1'
    ++ b58digits (2 * bs.length + 1) (bytesToNat bs))

/-! ## Keccak-256 (the `hashlib.new('keccak256')` primitive)

Original Keccak with rate 1088, capacity 512, multi-rate padding `0x01 … 0x80`.
The 5×5 lane state is a flat 25-element list indexed by `x + 5 * y`. -/

/-- Truncation to a 64-bit lane. -/
def m64 (x : Nat) : Nat := x % 18446744073709551616

/-- 64-bit left rotation. -/
def rotl64 (x n : Nat) : Nat := m64 ((x <<< n) ||| (x >>> (64 - n)))

/-- Keccak round constants (written in decimal). -/
def keccakRC : List Nat :=
  [1, 32898, 9223372036854808714,
   9223372039002292224, 32907, 2147483649,
   9223372039002292353, 9223372036854808585, 138,
   136, 2147516425, 2147483658,
   2147516555, 9223372036854775947, 9223372036854808713,
   9223372036854808579, 9223372036854808578, 9223372036854775936,
   32778, 9223372039002259466, 9223372039002292353,
   9223372036854808704, 2147483649, 9223372039002292232]

/-- Rho rotation offsets, flat-indexed by `x + 5 * y`, one row per chunk. -/
def rhoOffsets : List Nat :=
  [0, 1, 62, 28, 27] ++ [36, 44, 6, 55, 20] ++ [3, 10, 43, 25, 39]
    ++ [41, 45, 15, 21, 8] ++ [18, 2, 61, 56, 14]

/-- One Keccak-f round: theta, rho+pi, chi, iota. -/
def keccakRound (A : List Nat) (rc : Nat) : List Nat :=
  let C := (List.range 5).map (fun x =>
    A.getD x 0 ^^^ A.getD (x + 5) 0 ^^^ A.getD (x + 10) 0
      ^^^ A.getD (x + 15) 0 ^^^ A.getD (x + 20) 0)
  let D := (List.range 5).map (fun x =>
    C.getD ((x + 4) % 5) 0 ^^^ rotl64 (C.getD ((x + 1) % 5) 0) 1)
  let A1 := (List.range 25).map (fun i => A.getD i 0 ^^^ D.getD (i % 5) 0)
  let B := (List.range 25).map (fun i =>
    let bx := i % 5
    let bY := i / 5
    let sx := (bx + 3 * bY) % 5
    let src := sx + 5 * bx
    rotl64 (A1.getD src 0) (rhoOffsets.getD src 0))
  let A2 := (List.range 25).map (fun i =>
    let x := i % 5
    let y := i / 5
    B.getD i 0 ^^^
      ((B.getD ((x + 1) % 5 + 5 * y) 0 ^^^ 0xffffffffffffffff) &&&
        B.getD ((x + 2) % 5 + 5 * y) 0))
  (List.range 25).map (fun i => if i = 0 then A2.getD 0 0 ^^^ rc else A2.getD i 0)

/-- The full Keccak-f[1600] permutation (24 rounds). -/
def keccakF (A : List Nat) : List Nat := keccakRC.foldl keccakRound A

/-- Interpret up to 8 bytes little-endian as one 64-bit lane. -/
def leLane : List Nat → Nat
  | [] => 0
  | b :: bs => b + 256 * leLane bs

/-- XOR one 136-byte block into the first 17 lanes and permute. -/
def absorbBlock (A : List Nat) (block : List Nat) : List Nat :=
  keccakF ((List.range 25).map (fun i =>
    if i < 17 then A.getD i 0 ^^^ leLane ((block.drop (8 * i)).take 8)
    else A.getD i 0))

/-- Multi-rate padding `0x01 0x00 … 0x80` up to the 136-byte rate. -/
def keccakPad (msg : List Nat) : List Nat :=
  let padlen := 136 - msg.length % 136
  if padlen = 1 then msg ++ [0x81]
  else msg ++ [0x01] ++ List.replicate (padlen - 2) 0 ++ [0x80]

/-- Keccak-256 digest (32 bytes) of a byte string. -/
def keccak256 (msg : List Nat) : List Nat :=
  let padded := keccakPad msg
  let A := (chunksN 136 padded.length padded).foldl absorbBlock
    (List.replicate 25 0)
  natBytesLE 8 (A.getD 0 0) ++ natBytesLE 8 (A.getD 1 0)
    ++ natBytesLE 8 (A.getD 2 0) ++ natBytesLE 8 (A.getD 3 0)

/-! ## secp256k1 (the `ecdsa.SECP256k1` primitive)

Affine short-Weierstrass arithmetic over the secp256k1 field, `a = 0`,
`b = 7`, with the point at infinity as an explicit constructor. -/

/-- The secp256k1 field prime. -/
def secp_p : Nat :=
  0xfffffffffffffffffffffffffffffffffffffffffffffffffffffffefffffc2f

/-- The secp256k1 group order (`curve.order` in `ecdsa`). -/
def secp_n : Nat :=
  0xfffffffffffffffffffffffffffffffebaaedce6af48a03bbfd25e8cd0364141

/-- X coordinate of the secp256k1 base point. -/
def secp_Gx : Nat :=
  0x79be667ef9dcbbac55a06295ce870b07029bfcdb2dce28d959f2815b16f81798

/-- Y coordinate of the secp256k1 base point. -/
def secp_Gy : Nat :=
  0x483ada7726a3c4655da4fbfc0e1108a8fd17b448a68554199c47d08ffb10d4b8

/-- Fast modular exponentiation; `fuel` bounds the binary recursion. -/
def powModAux : Nat → Nat → Nat → Nat → Nat
  | 0, _, _, m => 1 % m
  | fuel + 1, b, e, m =>
      if e = 0 then 1 % m
      else
        let r := powModAux fuel (b * b % m) (e / 2) m
        if e % 2 = 1 then r * b % m else r

/-- `b ^ e % m` for exponents below `2 ^ 257`. -/
def powMod (b e m : Nat) : Nat := powModAux 257 (b % m) e m

/-- Modular inverse in the secp256k1 field, by Fermat. -/
def inv_p (a : Nat) : Nat := powMod a (secp_p - 2) secp_p

/-- Subtraction in the secp256k1 field. -/
def pSub (a b : Nat) : Nat := (a % secp_p + secp_p - b % secp_p) % secp_p

/-- A point of the curve: infinity or affine coordinates. -/
inductive ECPoint where
  | inf : ECPoint
  | aff : Nat → Nat → ECPoint
deriving DecidableEq

/-- Affine point addition on secp256k1 (curve coefficient `a = 0`). -/
def ecAdd : ECPoint → ECPoint → ECPoint
  | ECPoint.inf, q => q
  | p, ECPoint.inf => p
  | ECPoint.aff x1 y1, ECPoint.aff x2 y2 =>
      if x1 % secp_p = x2 % secp_p then
        if (y1 + y2) % secp_p = 0 then ECPoint.inf
        else
          let l := 3 * x1 * x1 % secp_p * inv_p (2 * y1) % secp_p
          let x3 := pSub (l * l) (x1 + x2)
          ECPoint.aff x3 (pSub (l * pSub x1 x3) y1)
      else
        let l := pSub y2 y1 * inv_p (pSub x2 x1) % secp_p
        let x3 := pSub (l * l) (x1 + x2)
        ECPoint.aff x3 (pSub (l * pSub x1 x3) y1)

/-- Double-and-add scalar multiplication, least-significant bit first;
`fuel` bounds the recursion on the halved scalar. -/
def ecMulAux : Nat → Nat → ECPoint → ECPoint
  | 0, _, _ => ECPoint.inf
  | fuel + 1, k, base =>
      if k = 0 then ECPoint.inf
      else
        let r := ecMulAux fuel (k / 2) (ecAdd base base)
        if k % 2 = 1 then ecAdd r base else r

/-- `k` times the secp256k1 base point (`curve.generator * secexp`). -/
def ecMulG (k : Nat) : ECPoint := ecMulAux 257 k (ECPoint.aff secp_Gx secp_Gy)

/-! ## The two BIP38 functions of the source

Both function bodies in `GenKS.py` are the single statement `pass`, so each
call returns Python `None` whatever its arguments are; no argument is read,
no exception can be raised.  `none` embeds that `None`. -/

/-- `bip38_decrypt(encrypted_key, password)`: body is `pass`. -/
def bip38_decrypt {α : Type} (encrypted_key : α) (password : String) :
    Option (List Nat × Bool) :=
  none

/-- `encrypt_bip38(private_key, password)`: body is `pass`. -/
def encrypt_bip38 {α : Type} (private_key : α) (password : String) :
    Option String :=
  none

/-! ## WIF encoding (`private_key_to_wif`) -/

/-- `private_key_to_wif(private_key, compressed)` from the source:
append `0x01` when compressed, prepend the mainnet version byte `0x80`,
append the first 4 bytes of the double SHA-256 checksum, base58-encode. -/
def private_key_to_wif (private_key : List Nat) (compressed : Bool) : String :=
  let pk := if compressed then private_key ++ [0x01] else private_key
  let extended_key := 0x80 :: pk
  let checksum := (sha256 (sha256 extended_key)).take 4
  b58encode (extended_key ++ checksum)

/-! ## Public key derivation (`private_key_to_public_key`) -/

/-- `ecdsa.util.number_to_string` at the secp256k1 order length. -/
def number_to_string (v : Nat) : List Nat := natBytesBE 32 v

/-- `vk.to_string()`: the 64-byte big-endian `X || Y` of the public point. -/
def vk_to_string (x y : Nat) : List Nat :=
  number_to_string x ++ number_to_string y

/-- `private_key_to_public_key(private_key, compressed)` from the source.
`SigningKey.from_string` raises unless the input has exactly 32 bytes and
its big-endian value `secexp` satisfies `1 ≤ secexp < curve order`; those
exception paths (and the unreachable point-at-infinity case) are `none`.
The compressed branch tests `vk.to_string()[32] % 2` — byte index 32, the
MOST significant byte of Y — and prefixes `0x02` or `0x03` before
`to_string()[:32]`; the uncompressed branch prefixes `0x04`. -/
def private_key_to_public_key (private_key : List Nat) (compressed : Bool) :
    Option (List Nat) :=
  if private_key.length = 32 then
    let secexp := bytesToNat private_key
    if 1 ≤ secexp ∧ secexp < secp_n then
      match ecMulG secexp with
      | ECPoint.inf => none
      | ECPoint.aff x y =>
          let s := vk_to_string x y
          if compressed then
            if s.getD 32 0 % 2 = 0 then some (0x02 :: s.take 32)
            else some (0x03 :: s.take 32)
          else some (0x04 :: s)
    else none
  else none

/-! ## Address generation (`public_key_to_address`) -/

/-- `public_key_to_address(public_key)` from the source: Keccak-256 over the
input, with the first byte stripped when it equals `0x04`; the result is
`'0x'` plus the last 40 characters of the hex digest.  `public_key[0]` on an
empty byte string raises IndexError, embedded as `none`. -/
def public_key_to_address (public_key : List Nat) : Option String :=
  match public_key with
  | [] => none
  | b :: rest =>
      let data := if b = 0x04 then rest else b :: rest
      let hx := bytesToHexChars (keccak256 data)
      some ("0x" ++ String.mk (hx.drop (hx.length - 40)))

/-- The WIF construction exactly as the specification words it (spec section
4.4): payload = version byte, then the key bytes, then a `0x01` suffix
exactly when compressed; checksum = first 4 bytes of the double hash of the
payload; result = base58 encoding of payload plus checksum. -/
def wif_spec (k : List Nat) (c : Bool) : String :=
  let payload := [0x80] ++ k ++ (if c then [0x01] else [])
  let checksum := (sha256 (sha256 payload)).take 4
  b58encode (payload ++ checksum)

/-! ## Helper lemmas -/

theorem natBytesBE_length (len v : Nat) : (natBytesBE len v).length = len := by
  induction len generalizing v with
  | zero => rfl
  | succ n ih => simp [natBytesBE, ih]

theorem natBytesLE_length (len v : Nat) : (natBytesLE len v).length = len := by
  induction len generalizing v with
  | zero => rfl
  | succ n ih => simp [natBytesLE, ih]

theorem keccak256_length (msg : List Nat) : (keccak256 msg).length = 32 := by
  simp [keccak256, natBytesLE_length]

theorem vk_to_string_length (x y : Nat) : (vk_to_string x y).length = 64 := by
  simp [vk_to_string, number_to_string, natBytesBE_length]

theorem bytesToHexChars_length (bs : List Nat) :
    (bytesToHexChars bs).length = 2 * bs.length := by
  induction bs with
  | nil => rfl
  | cons b bs ih => simp [bytesToHexChars, hexByte, ih]; omega

theorem bytesToHexChars_drop (k : Nat) (bs : List Nat) :
    (bytesToHexChars bs).drop (2 * k) = bytesToHexChars (bs.drop k) := by
  induction k generalizing bs with
  | zero => simp
  | succ n ih =>
    cases bs with
    | nil => simp [bytesToHexChars]
    | cons b bs =>
      show (hexChar _ :: hexChar _ :: bytesToHexChars bs).drop (2 * (n + 1)) = _
      rw [show 2 * (n + 1) = (2 * n) + 1 + 1 by omega]
      rw [List.drop_succ_cons, List.drop_succ_cons, ih]
      rfl

/-- Reduction of `private_key_to_public_key` on a validated key whose
public point is known to be affine. -/
theorem private_key_to_public_key_eq (kb : List Nat) (c : Bool) (x y : Nat)
    (hlen : kb.length = 32) (h1 : 1 ≤ bytesToNat kb)
    (h2 : bytesToNat kb < secp_n)
    (hm : ecMulG (bytesToNat kb) = ECPoint.aff x y) :
    private_key_to_public_key kb c =
      (if c then
        if (vk_to_string x y).getD 32 0 % 2 = 0 then
          some (0x02 :: (vk_to_string x y).take 32)
        else some (0x03 :: (vk_to_string x y).take 32)
      else some (0x04 :: vk_to_string x y)) := by
  unfold private_key_to_public_key
  rw [if_pos hlen, if_pos ⟨h1, h2⟩, hm]

/-- `private_key_to_public_key` in compressed form, reduced. -/
theorem private_key_to_public_key_eq_tt (kb : List Nat) (x y : Nat)
    (hlen : kb.length = 32) (h1 : 1 ≤ bytesToNat kb)
    (h2 : bytesToNat kb < secp_n)
    (hm : ecMulG (bytesToNat kb) = ECPoint.aff x y) :
    private_key_to_public_key kb true =
      (if (vk_to_string x y).getD 32 0 % 2 = 0 then
        some (0x02 :: (vk_to_string x y).take 32)
      else some (0x03 :: (vk_to_string x y).take 32)) := by
  rw [private_key_to_public_key_eq kb true x y hlen h1 h2 hm, if_pos rfl]

/-- `private_key_to_public_key` in uncompressed form, reduced. -/
theorem private_key_to_public_key_eq_ff (kb : List Nat) (x y : Nat)
    (hlen : kb.length = 32) (h1 : 1 ≤ bytesToNat kb)
    (h2 : bytesToNat kb < secp_n)
    (hm : ecMulG (bytesToNat kb) = ECPoint.aff x y) :
    private_key_to_public_key kb false = some (0x04 :: vk_to_string x y) := by
  rw [private_key_to_public_key_eq kb false x y hlen h1 h2 hm]
  rfl

/-- Reduction of `private_key_to_public_key` on a rejected scalar. -/
theorem private_key_to_public_key_invalid (kb : List Nat) (c : Bool)
    (hlen : kb.length = 32)
    (hv : ¬ (1 ≤ bytesToNat kb ∧ bytesToNat kb < secp_n)) :
    private_key_to_public_key kb c = none := by
  unfold private_key_to_public_key
  rw [if_pos hlen, if_neg hv]

/-! ## Claim theorems -/

/-- C1: the claim `bip38_decrypt(encrypt_bip38(k, p, c), p) = (k, c)` fails
on the code: both BIP38 functions are `pass` stubs, so at the concrete key
`1` (32 bytes) and passphrase `"TestingOneTwoThree"` the round trip yields
Python `None`, not the key/flag pair. -/
theorem c1_round_trip_yields_none :
    bip38_decrypt (encrypt_bip38 (natBytesBE 32 1) "TestingOneTwoThree")
        "TestingOneTwoThree" = none ∧
    ¬ bip38_decrypt (encrypt_bip38 (natBytesBE 32 1) "TestingOneTwoThree")
        "TestingOneTwoThree" = some (natBytesBE 32 1, false) :=
  ⟨rfl, by simp [bip38_decrypt]⟩

/-- C2: the claim that the compressed prefix is `0x02` exactly when the
Y coordinate is even fails on the code: for the private key with scalar
value 4, `4·G` has an even Y coordinate, yet the code emits prefix `0x03`
because it tests `to_string()[32]` — the MOST significant byte of Y
(here `0x51`, odd) — instead of Y's parity. -/
theorem c2_compressed_prefix_uses_wrong_byte :
    ecMulG 4 = ECPoint.aff
      0xe493dbf1c10d80f3581e4904930b1404cc6c13900ee0758474fa94abe8c4cd13
      0x51ed993ea0d455b75642e2098ea51448d967ae33bfbdfe40cfe97bdc47739922 ∧
    0x51ed993ea0d455b75642e2098ea51448d967ae33bfbdfe40cfe97bdc47739922
      % 2 = 0 ∧
    private_key_to_public_key (natBytesBE 32 4) true =
      some (0x03 :: natBytesBE 32
        0xe493dbf1c10d80f3581e4904930b1404cc6c13900ee0758474fa94abe8c4cd13) :=
  ⟨by decide, by decide, by decide⟩

/-- C3: for every private key byte string and compression flag, the WIF
output is the base58 encoding of `payload ++ checksum` with
`payload = 0x80 || key || (0x01 iff compressed)` and `checksum` the first
4 bytes of the double SHA-256 of the payload. -/
theorem c3_wif_matches_spec_formula (k : List Nat) (c : Bool) :
    private_key_to_wif k c = wif_spec k c := by
  cases c <;> simp [private_key_to_wif, wif_spec]

/-- C4: for every nonempty public key byte string, the address is `'0x'`
followed by the lowercase hex of the last 20 bytes of the Keccak-256 digest
of the input, with the leading byte stripped exactly when it is `0x04`. -/
theorem c4_address_formula (b : Nat) (rest : List Nat) :
    public_key_to_address (b :: rest) =
      some ("0x" ++ String.mk (bytesToHexChars
        ((keccak256 (if b = 0x04 then rest else b :: rest)).drop 12))) := by
  have hlen :
      (bytesToHexChars
        (keccak256 (if b = 0x04 then rest else b :: rest))).length = 64 := by
    rw [bytesToHexChars_length, keccak256_length]
  show some ("0x" ++ String.mk
    ((bytesToHexChars (keccak256 (if b = 0x04 then rest else b :: rest))).drop
      ((bytesToHexChars
        (keccak256 (if b = 0x04 then rest else b :: rest))).length - 40))) = _
  rw [hlen, show (64 : Nat) - 40 = 2 * 12 by omega, bytesToHexChars_drop]

/-- C5: the claim that a wrong passphrase raises `IntegrityError` fails on
the code: `bip38_decrypt` is a `pass` stub, so at a concrete record and a
passphrase different from the one used to create it, it returns Python
`None` — no integrity check exists and no error is ever signalled. -/
theorem c5_wrong_passphrase_yields_none :
    bip38_decrypt (encrypt_bip38 (natBytesBE 32 1) "correct passphrase")
      "wrong passphrase" = none :=
  rfl

/-- C6: under the defining property of the secp256k1 constants — a scalar
in `[1, n-1]` times the base point is a finite point, the contract of the
out-of-scope EC primitive — `private_key_to_public_key` on a 32-byte input
fails exactly when the scalar is `0` or at least the curve order. -/
theorem c6_scalar_validation_boundary (kb : List Nat) (c : Bool)
    (hlen : kb.length = 32)
    (hprim : 1 ≤ bytesToNat kb → bytesToNat kb < secp_n →
      ecMulG (bytesToNat kb) ≠ ECPoint.inf) :
    private_key_to_public_key kb c = none ↔
      (bytesToNat kb = 0 ∨ secp_n ≤ bytesToNat kb) := by
  by_cases hv : 1 ≤ bytesToNat kb ∧ bytesToNat kb < secp_n
  · obtain ⟨hv1, hv2⟩ := hv
    have hne := hprim hv1 hv2
    cases hm : ecMulG (bytesToNat kb) with
    | inf => exact absurd hm hne
    | aff x y =>
      constructor
      · intro h
        cases c
        · rw [private_key_to_public_key_eq_ff kb x y hlen hv1 hv2 hm] at h
          exact absurd h (by simp)
        · rw [private_key_to_public_key_eq_tt kb x y hlen hv1 hv2 hm] at h
          split at h <;> simp at h
      · intro h
        omega
  · rw [private_key_to_public_key_invalid kb c hlen hv]
    simp
    omega

/-- Witness for C6 at the concrete key with scalar 1. -/
theorem c6_scalar_validation_boundary_witness :
    private_key_to_public_key (natBytesBE 32 1) true = none ↔
      (bytesToNat (natBytesBE 32 1) = 0 ∨
        secp_n ≤ bytesToNat (natBytesBE 32 1)) :=
  c6_scalar_validation_boundary (natBytesBE 32 1) true (by decide) (by decide)

/-- C7: under the same EC-primitive contract as C6, every valid private key
yields a 33-byte compressed and a 65-byte uncompressed public key. -/
theorem c7_public_key_lengths (kb : List Nat) (hlen : kb.length = 32)
    (h1 : 1 ≤ bytesToNat kb) (h2 : bytesToNat kb < secp_n)
    (hprim : ecMulG (bytesToNat kb) ≠ ECPoint.inf) :
    (∃ pk, private_key_to_public_key kb true = some pk ∧ pk.length = 33) ∧
    (∃ pk, private_key_to_public_key kb false = some pk ∧ pk.length = 65) := by
  cases hm : ecMulG (bytesToNat kb) with
  | inf => exact absurd hm hprim
  | aff x y =>
    have hs := vk_to_string_length x y
    refine ⟨?_, 0x04 :: vk_to_string x y,
      private_key_to_public_key_eq_ff kb x y hlen h1 h2 hm,
      by simp only [List.length_cons, hs]⟩
    by_cases hp : (vk_to_string x y).getD 32 0 % 2 = 0
    · refine ⟨0x02 :: (vk_to_string x y).take 32, ?_, ?_⟩
      · rw [private_key_to_public_key_eq_tt kb x y hlen h1 h2 hm, if_pos hp]
      · simp only [List.length_cons, List.length_take, hs]
        omega
    · refine ⟨0x03 :: (vk_to_string x y).take 32, ?_, ?_⟩
      · rw [private_key_to_public_key_eq_tt kb x y hlen h1 h2 hm, if_neg hp]
      · simp only [List.length_cons, List.length_take, hs]
        omega

/-- Witness for C7 at the concrete key with scalar 1. -/
theorem c7_public_key_lengths_witness :
    (∃ pk, private_key_to_public_key (natBytesBE 32 1) true = some pk ∧
      pk.length = 33) ∧
    (∃ pk, private_key_to_public_key (natBytesBE 32 1) false = some pk ∧
      pk.length = 65) :=
  c7_public_key_lengths (natBytesBE 32 1) (by decide) (by decide) (by decide)
    (by decide)

/-- C8: every pipeline operation is deterministic — two calls of
`private_key_to_wif`, `private_key_to_public_key`, or
`public_key_to_address` with identical inputs give identical outputs. -/
theorem c8_pipeline_determinism (k1 k2 p1 p2 : List Nat) (c1 c2 : Bool)
    (hk : k1 = k2) (hc : c1 = c2) (hp : p1 = p2) :
    private_key_to_wif k1 c1 = private_key_to_wif k2 c2 ∧
    private_key_to_public_key k1 c1 = private_key_to_public_key k2 c2 ∧
    public_key_to_address p1 = public_key_to_address p2 := by
  subst hk; subst hc; subst hp
  exact ⟨rfl, rfl, rfl⟩

/-- Witness for C8 at concrete inputs. -/
theorem c8_pipeline_determinism_witness :
    private_key_to_wif [7] true = private_key_to_wif [7] true ∧
    private_key_to_public_key [7] true = private_key_to_public_key [7] true ∧
    public_key_to_address [2, 9] = public_key_to_address [2, 9] :=
  c8_pipeline_determinism [7] [7] [2, 9] [2, 9] true true rfl rfl rfl

/-- C9: for every input, both BIP38 functions return Python `None` (their
bodies are `pass`, total functions in the embedding, so they never raise):
no caller can distinguish success from failure through the return value. -/
theorem c9_stubs_always_return_none (α β : Type) (encrypted_key : α)
    (private_key : β) (password1 password2 : String) :
    bip38_decrypt encrypted_key password1 = none ∧
    encrypt_bip38 private_key password2 = none :=
  ⟨rfl, rfl⟩

/-! ## Validation of the embedded primitives against published vectors -/

/-- SHA-256 of `"abc"`, the FIPS 180 test vector. -/
theorem sha256_abc_vector :
    sha256 [0x61, 0x62, 0x63] =
      [0xba, 0x78, 0x16, 0xbf, 0x8f, 0x01, 0xcf, 0xea, 0x41, 0x41, 0x40,
       0xde, 0x5d, 0xae, 0x22, 0x23, 0xb0, 0x03, 0x61, 0xa3, 0x96, 0x17,
       0x7a, 0x9c, 0xb4, 0x10, 0xff, 0x61, 0xf2, 0x00, 0x15, 0xad] := by
  decide

/-- Keccak-256 of the empty string, the well-known constant
`c5d246…85a470`. -/
theorem keccak256_empty_vector :
    keccak256 [] =
      [0xc5, 0xd2, 0x46, 0x01, 0x86, 0xf7, 0x23, 0x3c, 0x92, 0x7e, 0x7d,
       0xb2, 0xdc, 0xc7, 0x03, 0xc0, 0xe5, 0x00, 0xb6, 0x53, 0xca, 0x82,
       0x27, 0x3b, 0x7b, 0xfa, 0xd8, 0x04, 0x5d, 0x85, 0xa4, 0x70] := by
  decide

/-- Base58 of `"hello world"`. -/
theorem b58encode_vector :
    b58encode [0x68, 0x65, 0x6c, 0x6c, 0x6f, 0x20, 0x77, 0x6f, 0x72, 0x6c,
      0x64] = "StV1DL6CwTryKyV" := by
  decide

/-- The well-known WIF encodings of the private key with scalar value 1. -/
theorem wif_scalar_one_vectors :
    private_key_to_wif (natBytesBE 32 1) false =
      "5HpHagT65TZzG1PH3CSu63k8DbpvD8s5ip4nEB3kEsreAnchuDf" ∧
    private_key_to_wif (natBytesBE 32 1) true =
      "KwDiBf89QgGbjEhKnhXJuH7LrciVrZi3qYjgd9M7rFU73sVHnoWn" := by
  exact ⟨by decide, by decide⟩

/-- `2·G` on secp256k1, a published point. -/
theorem ecMulG_two_vector :
    ecMulG 2 = ECPoint.aff
      0xc6047f9441ed7d6d3045406e95c07cd85c778e4b8cef3ca7abac09b95c709ee5
      0x1ae168fea63dc339a3c58419466ceaeef7f632653266d0e1236431a950cfe52a := by
  decide

end GenKS
